import Mathlib

/-!
Shallow embedding of `imfile` (src/src/file_dialog.rs), an immediate-mode
file-dialog widget for imgui, together with proofs about its behaviour.

The embedding models:
* `std::path` components and the `Ord`/`starts_with` operations on paths;
* the `FileDialog` struct, its constructor and builder methods;
* the `spawn` render call, as a pure function from the dialog state, a
  filesystem oracle and a per-frame input description to either a panic
  (`Except.error`, for the `unwrap`/`expect` calls in the source) or the
  frame's outcome: the updated dialog, the process current directory, the
  `Option<PathBuf>` return value, and the list of rendered control labels.
-/

namespace ImFile

/-- A `std::path` component (Unix flavour: no `Prefix`/verbatim components). -/
inductive Component where
  | rootDir
  | curDir
  | parentDir
  | normal (s : String)
deriving DecidableEq, Repr

/-- A path is its list of components, as produced by `Path::components()`. -/
abbrev Path := List Component

/-- Rust compares `OsStr` names byte-wise; over UTF-8 this coincides with
code-point order on characters. -/
def charCmp (a b : Char) : Ordering :=
  if a < b then Ordering.lt else if b < a then Ordering.gt else Ordering.eq

/-- Lexicographic comparison of lists by a base comparison, as used by
`Ord for Path` (component-wise) and byte-wise string comparison. -/
def lexCmp (c : α → α → Ordering) : List α → List α → Ordering
  | [], [] => Ordering.eq
  | [], _ :: _ => Ordering.lt
  | _ :: _, [] => Ordering.gt
  | a :: as, b :: bs =>
    match c a b with
    | Ordering.eq => lexCmp c as bs
    | o => o

/-- Byte-wise comparison of two names, as `Ord for OsStr`. -/
def strCmp (a b : String) : Ordering := lexCmp charCmp a.data b.data

/-- `Ord for Component`: `RootDir < CurDir < ParentDir < Normal`, with
`Normal` names compared byte-wise (the derived order in `std::path`). -/
def componentCmp : Component → Component → Ordering
  | Component.rootDir, Component.rootDir => Ordering.eq
  | Component.rootDir, _ => Ordering.lt
  | _, Component.rootDir => Ordering.gt
  | Component.curDir, Component.curDir => Ordering.eq
  | Component.curDir, _ => Ordering.lt
  | _, Component.curDir => Ordering.gt
  | Component.parentDir, Component.parentDir => Ordering.eq
  | Component.parentDir, _ => Ordering.lt
  | _, Component.parentDir => Ordering.gt
  | Component.normal a, Component.normal b => strCmp a b

/-- `Ord for Path`: lexicographic over components (`a.path().cmp(&b.path())`). -/
def pathCmp (p q : Path) : Ordering := lexCmp componentCmp p q

/-- `Path::starts_with(base)`: whole-component prefix test. -/
def startsWith : Path → Path → Bool
  | _, [] => true
  | [], _ :: _ => false
  | a :: as, b :: bs => a == b && startsWith as bs

/-- `Path::is_absolute()` (Unix: `has_root`). -/
def isAbsolute (p : Path) : Bool := p.head? == some Component.rootDir

/-- `PathBuf::pop()`: truncate to the parent; no-op when the path is the
filesystem root (or empty). -/
def popPath (p : Path) : Path :=
  if p = [] || p = [Component.rootDir] then p else p.dropLast

/-- Display of one component, as `to_string_lossy` renders it on Unix. -/
def Component.display : Component → String
  | Component.rootDir => "/"
  | Component.curDir => "."
  | Component.parentDir => ".."
  | Component.normal s => s

/-- The `FileDialog` struct (src/src/file_dialog.rs lines 26-34). -/
structure FileDialog where
  accept_text : String
  cancel_text : String
  title : String
  filename : String
  is_open : Bool
  dirs_only : Bool
  show_hidden_files : Bool
deriving DecidableEq, Repr

/-- `FileDialog::new()` (lines 40-50). -/
def FileDialog.new : FileDialog :=
  { accept_text := "Open"
    cancel_text := "Cancel"
    title := "Open File"
    filename := ""
    is_open := true
    dirs_only := false
    show_hidden_files := false }

namespace Build

/-- Builder `FileDialog::title` (lines 54-57). -/
def title (s : String) (d : FileDialog) : FileDialog := { d with title := s }

/-- Builder `FileDialog::accept_text` (lines 61-64). -/
def accept_text (s : String) (d : FileDialog) : FileDialog := { d with accept_text := s }

/-- Builder `FileDialog::cancel_text` (lines 68-71). -/
def cancel_text (s : String) (d : FileDialog) : FileDialog := { d with cancel_text := s }

/-- Builder `FileDialog::dir_only` (lines 75-78). -/
def dir_only (d : FileDialog) : FileDialog := { d with dirs_only := true }

/-- Builder `FileDialog::for_save` (lines 82-86): clears `is_open` and also
resets `dirs_only`. -/
def for_save (d : FileDialog) : FileDialog := { d with is_open := false, dirs_only := false }

end Build

/-- Filesystem oracle consumed by `spawn`: directory listings (`None` models
a failing `fs::read_dir`, an inner `none` a failing `DirEntry` result) and
the `is_dir`/`is_file` metadata tests; `isDir` also decides whether
`set_current_dir` into that path succeeds. -/
structure FS where
  readDir : Path → Option (List (Option String))
  isDir : Path → Bool
  isFile : Path → Bool

/-- Per-frame input: which imgui controls report activation this frame.
Breadcrumb buttons are identified by their index in the component row,
entry buttons by the entry's full path. -/
structure Frame where
  breadcrumbClicked : Nat → Bool
  breadcrumbHovered : Nat → Bool
  entryClicked : Path → Bool
  backClicked : Bool
  hiddenClicked : Bool

/-- `std::env::set_current_dir(p)`: a relative path is resolved against the
current directory; the call succeeds exactly when the target is an
accessible directory. -/
def chdir (fs : FS) (cwd p : Path) : Option Path :=
  let target := if isAbsolute p then p else cwd ++ p
  if fs.isDir target then some target else none

/-- Accumulator for the breadcrumb row: the (possibly changed) current
directory and the labels rendered so far. -/
structure CrumbAcc where
  cwd : Path
  trace : List String
deriving Repr

/-- One breadcrumb button (lines 109-119): render the component's label,
on activation `set_current_dir(dir)` with the single component as the
argument (errors logged and discarded), plus the hover tooltip. -/
def crumbStep (fs : FS) (fr : Frame) (acc : CrumbAcc) (ic : Nat × Component) : CrumbAcc :=
  let cwd' :=
    if fr.breadcrumbClicked ic.1 then (chdir fs acc.cwd [ic.2]).getD acc.cwd else acc.cwd
  let tr' := acc.trace ++ [ic.2.display] ++
    (if fr.breadcrumbHovered ic.1 then ["Directory: " ++ ic.2.display] else [])
  { cwd := cwd', trace := tr' }

/-- The "Path Selection" child window (lines 102-120): a "Path: " button
followed by one button per component of the current directory. -/
def breadcrumbRow (fs : FS) (fr : Frame) (cwd0 : Path) : CrumbAcc :=
  cwd0.enum.foldl (crumbStep fs fr) { cwd := cwd0, trace := ["Path: "] }

/-- The `filter_map` over `read_dir` results (lines 127-138): each entry
error panics via `expect`; a surviving entry is kept when
`show_hidden_files` is set or when `!entry.path().starts_with(".")`. -/
def collectEntries (d : FileDialog) (cwd : Path) :
    List (Option String) → Except String (List Path)
  | [] => Except.ok []
  | none :: _ => Except.error "Filesystem entry error"
  | some name :: rest =>
    match collectEntries d cwd rest with
    | Except.error e => Except.error e
    | Except.ok tail =>
      let p := cwd ++ [Component.normal name]
      if d.show_hidden_files then Except.ok (p :: tail)
      else if !(startsWith p [Component.curDir]) then Except.ok (p :: tail)
      else Except.ok tail

/-- The comparator passed to `entries.sort_by` (lines 141-149): directories
first, otherwise compare the full paths. -/
def entryCmp (fs : FS) (a b : Path) : Ordering :=
  if fs.isDir a && !(fs.isDir b) then Ordering.lt
  else if !(fs.isDir a) && fs.isDir b then Ordering.gt
  else pathCmp a b

/-- The non-strict order induced by the comparator. -/
def entryLe (fs : FS) (a b : Path) : Prop := entryCmp fs a b ≠ Ordering.gt

instance (fs : FS) : DecidableRel (entryLe fs) := fun a b => by
  unfold entryLe; infer_instance

/-- `entries.sort_by(comparator)`: a stable comparison sort, modelled by
insertion sort (which is stable). -/
def sortEntries (fs : FS) (l : List Path) : List Path :=
  List.insertionSort (entryLe fs) l

/-- Listing phase of the entry window (lines 125-149): read the current
directory (`unwrap` panics on failure), filter, then sort. -/
def renderList (d : FileDialog) (fs : FS) (cwd : Path) : Except String (List Path) :=
  match fs.readDir cwd with
  | none => Except.error "called Result::unwrap on an Err value"
  | some raw =>
    match collectEntries d cwd raw with
    | Except.error e => Except.error e
    | Except.ok l => Except.ok (sortEntries fs l)

/-- Accumulator for the entry loop: current directory, pending result
(`path` in the source), and rendered labels. -/
structure LoopAcc where
  cwd : Path
  result : Option Path
  trace : List String
deriving Repr

/-- Base name used in entry labels: `entry.path().iter().last().unwrap()`.
Entry paths have the form `dir ++ [name]`, so they are never empty and the
`unwrap` cannot fail; the default is unreachable. -/
def lastName (p : Path) : String := (p.getLast?.getD Component.curDir).display

/-- One iteration of the entry loop (lines 150-165): files (when
`dirs_only` is unset) set the pending result on activation; directories
attempt `set_current_dir`, and on failure the error is logged and the
pending result is reset to `None` by the `map_err` closure. -/
def entryStep (d : FileDialog) (fs : FS) (fr : Frame) (acc : LoopAcc) (e : Path) : LoopAcc :=
  if fs.isFile e && !d.dirs_only then
    let tr := acc.trace ++ ["[file]\t" ++ lastName e]
    if fr.entryClicked e then { acc with result := some e, trace := tr }
    else { acc with trace := tr }
  else if fs.isDir e then
    let tr := acc.trace ++ ["[dir] \t" ++ lastName e]
    if fr.entryClicked e then
      match chdir fs acc.cwd e with
      | some c => { cwd := c, result := acc.result, trace := tr }
      | none => { cwd := acc.cwd, result := none, trace := tr }
    else { acc with trace := tr }
  else acc

/-- The entry loop over the sorted listing. -/
def entryLoop (d : FileDialog) (fs : FS) (fr : Frame) (l : List Path) (cwd : Path) : LoopAcc :=
  l.foldl (entryStep d fs fr) { cwd := cwd, result := none, trace := [] }

/-- The "Back" button's action (lines 174-181): pop the current directory
and `set_current_dir` there, discarding any error. -/
def backAction (fs : FS) (cwd : Path) : Path := (chdir fs cwd (popPath cwd)).getD cwd

/-- Output of the controls child window. -/
structure BarOut where
  dialog : FileDialog
  cwd : Path
  trace : List String
deriving Repr

/-- The "controls" child window (lines 167-188): the Save-mode filename
text, the "Back" button, the literal "Open" button (result unused), and the
"Hidden Files" checkbox. imgui's checkbox writes the toggled value through
its reference and returns true when activated; the source then negates the
flag once more. -/
def controlBar (d : FileDialog) (fs : FS) (fr : Frame) (cwd : Path) : BarOut :=
  let tr1 : List String := if !d.is_open then ["Filename: " ++ d.filename] else []
  let tr2 := tr1 ++ ["Back"]
  let cwd1 := if fr.backClicked then backAction fs cwd else cwd
  let tr3 := tr2 ++ ["Open"]
  let tr4 := tr3 ++ ["Hidden Files"]
  let d' :=
    if fr.hiddenClicked then
      let toggled := !d.show_hidden_files
      { d with show_hidden_files := !toggled }
    else d
  { dialog := d', cwd := cwd1, trace := tr4 }

/-- Everything observable about one `spawn` call: the dialog after the
frame, the process current directory, the `Option<PathBuf>` return value,
and the rendered labels in order. -/
structure SpawnOut where
  dialog : FileDialog
  cwd : Path
  result : Option Path
  trace : List String
deriving Repr

/-- `FileDialog::spawn` (lines 97-191) for one frame: breadcrumb row, then
the filtered/sorted listing and entry loop, then the control bar.
`Except.error` models a panic escaping the render call. -/
def spawn (d : FileDialog) (fs : FS) (cwd0 : Path) (fr : Frame) : Except String SpawnOut :=
  let crumbs := breadcrumbRow fs fr cwd0
  match renderList d fs crumbs.cwd with
  | Except.error e => Except.error e
  | Except.ok entries =>
    let loop := entryLoop d fs fr entries crumbs.cwd
    let bar := controlBar d fs fr loop.cwd
    Except.ok
      { dialog := bar.dialog
        cwd := bar.cwd
        result := loop.result
        trace := d.title :: (crumbs.trace ++ loop.trace ++ bar.trace) }

/-- Projection: the frame's `Option<PathBuf>` return value, when the call
did not panic. -/
def spawnResult (x : Except String SpawnOut) : Option (Option Path) :=
  x.toOption.map SpawnOut.result

/-- Projection: the current directory after the frame, when the call did
not panic. -/
def spawnCwd (x : Except String SpawnOut) : Option Path :=
  x.toOption.map SpawnOut.cwd

/-- Projection: the dialog's hidden-files flag after the frame, when the
call did not panic. -/
def spawnHidden (x : Except String SpawnOut) : Option Bool :=
  x.toOption.map fun o => o.dialog.show_hidden_files

/-- One builder-method call, with its argument where the method takes one. -/
inductive BuilderCall where
  | titleB (s : String)
  | acceptTextB (s : String)
  | cancelTextB (s : String)
  | dirOnlyB
  | forSaveB
deriving DecidableEq, Repr

/-- Apply a builder call to a dialog. -/
def BuilderCall.apply : BuilderCall → FileDialog → FileDialog
  | BuilderCall.titleB s, d => Build.title s d
  | BuilderCall.acceptTextB s, d => Build.accept_text s d
  | BuilderCall.cancelTextB s, d => Build.cancel_text s d
  | BuilderCall.dirOnlyB, d => Build.dir_only d
  | BuilderCall.forSaveB, d => Build.for_save d

/-- Which of the five builder methods a call invokes (0 = title,
1 = accept_text, 2 = cancel_text, 3 = dir_only, 4 = for_save). -/
def BuilderCall.kind : BuilderCall → Nat
  | BuilderCall.titleB _ => 0
  | BuilderCall.acceptTextB _ => 1
  | BuilderCall.cancelTextB _ => 2
  | BuilderCall.dirOnlyB => 3
  | BuilderCall.forSaveB => 4

/-! Concrete fixtures used to evaluate the code on specific inputs. -/

/-- A frame with no activated control. -/
def frIdle : Frame :=
  { breadcrumbClicked := fun _ => false
    breadcrumbHovered := fun _ => false
    entryClicked := fun _ => false
    backClicked := false
    hiddenClicked := false }

/-- A frame in which exactly the entry button for `t` is activated. -/
def frOnlyEntry (t : Path) : Frame := { frIdle with entryClicked := fun p => p == t }

/-- Directory `/d` containing the single entry `.hidden` (a file). -/
def fsHidden : FS :=
  { readDir := fun p =>
      if p = [Component.rootDir, Component.normal "d"] then some [some ".hidden"] else none
    isDir := fun p =>
      p == [Component.rootDir] || p == [Component.rootDir, Component.normal "d"]
    isFile := fun p =>
      p == [Component.rootDir, Component.normal "d", Component.normal ".hidden"] }

/-- Root directory containing `b.txt` (file), `A` (directory) and `.hidden`
(file), the directory of the spec's worked example. -/
def fsDemo : FS :=
  { readDir := fun p =>
      if p = [Component.rootDir] then some [some "b.txt", some "A", some ".hidden"] else none
    isDir := fun p =>
      p == [Component.rootDir] || p == [Component.rootDir, Component.normal "A"]
    isFile := fun p =>
      p == [Component.rootDir, Component.normal "b.txt"] ||
        p == [Component.rootDir, Component.normal ".hidden"] }

/-- Root directory containing the single file `f.txt`. -/
def fsOneFile : FS :=
  { readDir := fun p => if p = [Component.rootDir] then some [some "f.txt"] else none
    isDir := fun p => p == [Component.rootDir]
    isFile := fun p => p == [Component.rootDir, Component.normal "f.txt"] }

/-- A filesystem whose directory reads always fail. -/
def fsNoRead : FS :=
  { readDir := fun _ => none
    isDir := fun p => p == [Component.rootDir]
    isFile := fun _ => false }

/-- Empty listings everywhere; the directories `/`, `/a`, `/a/b` and
`/a/b/a` exist. -/
def fsCrumb : FS :=
  { readDir := fun _ => some []
    isDir := fun p =>
      p == [Component.rootDir] ||
        p == [Component.rootDir, Component.normal "a"] ||
          p == [Component.rootDir, Component.normal "a", Component.normal "b"] ||
            p == [Component.rootDir, Component.normal "a", Component.normal "b",
              Component.normal "a"]
    isFile := fun _ => false }

/-- Empty listings everywhere; only the root directory exists. -/
def fsIdle : FS :=
  { readDir := fun _ => some []
    isDir := fun p => p == [Component.rootDir]
    isFile := fun _ => false }

/-- Root directory containing the single subdirectory `sub` (itself empty). -/
def fsSub : FS :=
  { readDir := fun p =>
      if p = [Component.rootDir] then some [some "sub"]
      else if p = [Component.rootDir, Component.normal "sub"] then some []
      else none
    isDir := fun p =>
      p == [Component.rootDir] || p == [Component.rootDir, Component.normal "sub"]
    isFile := fun _ => false }

end ImFile

namespace ImFile

/-! Order-theoretic facts about the comparators. -/

theorem lexCmp_swap {α : Type} (c : α → α → Ordering)
    (hswap : ∀ a b, (c a b).swap = c b a) :
    ∀ p q, (lexCmp c p q).swap = lexCmp c q p := by
  intro p
  induction p with
  | nil => intro q; cases q <;> rfl
  | cons a as ih =>
    intro q
    cases q with
    | nil => rfl
    | cons b bs =>
      have h := hswap a b
      cases hab : c a b <;> rw [hab] at h <;>
        simp only [lexCmp, hab, ← h, Ordering.swap]
      exact ih bs

theorem lexCmp_eq_iff {α : Type} (c : α → α → Ordering)
    (heq : ∀ a b, c a b = Ordering.eq ↔ a = b) :
    ∀ p q, lexCmp c p q = Ordering.eq ↔ p = q := by
  intro p
  induction p with
  | nil => intro q; cases q <;> simp [lexCmp]
  | cons a as ih =>
    intro q
    cases q with
    | nil => simp [lexCmp]
    | cons b bs =>
      simp only [lexCmp]
      cases hab : c a b with
      | eq =>
        have hb := (heq a b).mp hab
        subst hb
        simp [ih bs]
      | lt =>
        constructor
        · intro h; exact nomatch h
        · intro h
          rw [List.cons.injEq] at h
          rw [(heq a b).mpr h.1] at hab
          exact nomatch hab
      | gt =>
        constructor
        · intro h; exact nomatch h
        · intro h
          rw [List.cons.injEq] at h
          rw [(heq a b).mpr h.1] at hab
          exact nomatch hab

theorem lexCmp_lt_trans {α : Type} (c : α → α → Ordering)
    (heq : ∀ a b, c a b = Ordering.eq ↔ a = b)
    (htr : ∀ a b e, c a b = Ordering.lt → c b e = Ordering.lt → c a e = Ordering.lt) :
    ∀ p q r, lexCmp c p q = Ordering.lt → lexCmp c q r = Ordering.lt →
      lexCmp c p r = Ordering.lt := by
  intro p
  induction p with
  | nil =>
    intro q r h1 h2
    cases q with
    | nil => exact nomatch h1
    | cons b bs =>
      cases r with
      | nil => exact nomatch h2
      | cons z zs => rfl
  | cons a as ih =>
    intro q r h1 h2
    cases q with
    | nil => exact nomatch h1
    | cons b bs =>
      cases r with
      | nil => exact nomatch h2
      | cons z zs =>
        simp only [lexCmp] at h1 h2 ⊢
        cases hab : c a b with
        | lt =>
          cases hbz : c b z with
          | lt => rw [htr a b z hab hbz]
          | eq =>
            have hz := (heq b z).mp hbz
            subst hz
            rw [hab]
          | gt => rw [hbz] at h2; exact nomatch h2
        | eq =>
          have hb := (heq a b).mp hab
          subst hb
          rw [hab] at h1
          cases hbz : c a z with
          | lt => rfl
          | eq =>
            rw [hbz] at h2
            exact ih bs zs h1 h2
          | gt => rw [hbz] at h2; exact nomatch h2
        | gt => rw [hab] at h1; exact nomatch h1

theorem charCmp_swap (a b : Char) : (charCmp a b).swap = charCmp b a := by
  unfold charCmp
  rcases lt_trichotomy a b with h | h | h
  · simp [h, lt_asymm h, Ordering.swap]
  · subst h; simp [lt_irrefl, Ordering.swap]
  · simp [h, lt_asymm h, Ordering.swap]

theorem charCmp_eq_iff (a b : Char) : charCmp a b = Ordering.eq ↔ a = b := by
  unfold charCmp
  split_ifs with h1 h2
  · constructor
    · intro h; exact nomatch h
    · intro h; subst h; exact absurd h1 (lt_irrefl a)
  · constructor
    · intro h; exact nomatch h
    · intro h; subst h; exact absurd h2 (lt_irrefl a)
  · simpa using le_antisymm (le_of_not_lt h2) (le_of_not_lt h1)

theorem charCmp_lt_iff (a b : Char) : charCmp a b = Ordering.lt ↔ a < b := by
  unfold charCmp
  split_ifs with h1 h2
  · simp [h1]
  · simp [h1]
  · simp [h1]

theorem charCmp_lt_trans {a b e : Char} (h1 : charCmp a b = Ordering.lt)
    (h2 : charCmp b e = Ordering.lt) : charCmp a e = Ordering.lt := by
  rw [charCmp_lt_iff] at h1 h2 ⊢
  exact lt_trans h1 h2

theorem strCmp_swap (a b : String) : (strCmp a b).swap = strCmp b a :=
  lexCmp_swap charCmp charCmp_swap a.data b.data

theorem strCmp_eq_iff (a b : String) : strCmp a b = Ordering.eq ↔ a = b := by
  rw [strCmp, lexCmp_eq_iff charCmp charCmp_eq_iff]
  constructor
  · intro h
    cases a with
    | mk da =>
      cases b with
      | mk db => exact congrArg String.mk h
  · intro h; rw [h]

theorem strCmp_lt_trans {a b e : String} (h1 : strCmp a b = Ordering.lt)
    (h2 : strCmp b e = Ordering.lt) : strCmp a e = Ordering.lt :=
  lexCmp_lt_trans charCmp charCmp_eq_iff (fun _ _ _ => charCmp_lt_trans)
    a.data b.data e.data h1 h2

theorem componentCmp_swap (a b : Component) :
    (componentCmp a b).swap = componentCmp b a := by
  cases a <;> cases b <;> first | rfl | exact strCmp_swap _ _

theorem componentCmp_eq_iff (a b : Component) :
    componentCmp a b = Ordering.eq ↔ a = b := by
  cases a <;> cases b <;> simp [componentCmp, strCmp_eq_iff]

theorem componentCmp_lt_trans {a b e : Component}
    (h1 : componentCmp a b = Ordering.lt) (h2 : componentCmp b e = Ordering.lt) :
    componentCmp a e = Ordering.lt := by
  cases a <;> cases b <;> cases e <;>
    simp only [componentCmp] at h1 h2 ⊢ <;>
    first
      | rfl
      | (simp at h1; done)
      | (simp at h2; done)
      | exact strCmp_lt_trans h1 h2

theorem pathCmp_swap (p q : Path) : (pathCmp p q).swap = pathCmp q p :=
  lexCmp_swap componentCmp componentCmp_swap p q

theorem pathCmp_eq_iff (p q : Path) : pathCmp p q = Ordering.eq ↔ p = q :=
  lexCmp_eq_iff componentCmp componentCmp_eq_iff p q

theorem pathCmp_lt_trans {p q r : Path} (h1 : pathCmp p q = Ordering.lt)
    (h2 : pathCmp q r = Ordering.lt) : pathCmp p r = Ordering.lt :=
  lexCmp_lt_trans componentCmp componentCmp_eq_iff
    (fun _ _ _ => componentCmp_lt_trans) p q r h1 h2

end ImFile

namespace ImFile

/-! Properties of the sort comparator and the rendered listing. -/

theorem entryCmp_swap (fs : FS) (a b : Path) :
    (entryCmp fs a b).swap = entryCmp fs b a := by
  unfold entryCmp
  cases hda : fs.isDir a <;> cases hdb : fs.isDir b <;>
    simp only [hda, hdb, Bool.not_true, Bool.not_false, Bool.and_true, Bool.and_false,
      Bool.true_and, Bool.false_and, Bool.and_self, if_true, if_false] <;>
    first
      | rfl
      | exact pathCmp_swap a b

theorem entryCmp_eq_iff (fs : FS) (a b : Path) :
    entryCmp fs a b = Ordering.eq ↔ a = b := by
  unfold entryCmp
  cases hda : fs.isDir a <;> cases hdb : fs.isDir b <;> simp [pathCmp_eq_iff]
  · intro h
    subst h
    rw [hda] at hdb
    exact nomatch hdb
  · intro h
    subst h
    rw [hda] at hdb
    exact nomatch hdb

theorem entryCmp_lt_trans (fs : FS) {a b e : Path}
    (h1 : entryCmp fs a b = Ordering.lt) (h2 : entryCmp fs b e = Ordering.lt) :
    entryCmp fs a e = Ordering.lt := by
  unfold entryCmp at h1 h2 ⊢
  cases hda : fs.isDir a <;> cases hdb : fs.isDir b <;> cases hde : fs.isDir e <;>
    simp only [hda, hdb, hde, Bool.and_self, Bool.and_true, Bool.and_false, Bool.not_true,
      Bool.not_false, Bool.true_and, Bool.false_and, if_true, if_false] at h1 h2 ⊢ <;>
    first
      | rfl
      | (simp at h1; done)
      | (simp at h2; done)
      | exact pathCmp_lt_trans h1 h2

theorem entryLe_total (fs : FS) (a b : Path) : entryLe fs a b ∨ entryLe fs b a := by
  unfold entryLe
  by_cases h : entryCmp fs a b = Ordering.gt
  · right
    intro hb
    have hs := entryCmp_swap fs a b
    rw [h, hb] at hs
    exact nomatch hs
  · left; exact h

theorem entryLe_trans (fs : FS) {a b e : Path}
    (h1 : entryLe fs a b) (h2 : entryLe fs b e) : entryLe fs a e := by
  unfold entryLe at h1 h2 ⊢
  cases hab : entryCmp fs a b with
  | eq =>
    have := (entryCmp_eq_iff fs a b).mp hab
    subst this
    exact h2
  | gt => exact absurd hab h1
  | lt =>
    cases hbe : entryCmp fs b e with
    | eq =>
      have := (entryCmp_eq_iff fs b e).mp hbe
      subst this
      intro h
      rw [hab] at h
      exact nomatch h
    | gt => exact absurd hbe h2
    | lt =>
      intro h
      rw [entryCmp_lt_trans fs hab hbe] at h
      exact nomatch h

theorem sortEntries_pairwise (fs : FS) (l : List Path) :
    List.Pairwise (entryLe fs) (sortEntries fs l) := by
  haveI : IsTotal Path (entryLe fs) := ⟨entryLe_total fs⟩
  haveI : IsTrans Path (entryLe fs) := ⟨fun _ _ _ => entryLe_trans fs⟩
  exact List.sorted_insertionSort (entryLe fs) l

theorem sortEntries_perm (fs : FS) (l : List Path) : (sortEntries fs l).Perm l :=
  List.perm_insertionSort (entryLe fs) l

theorem entryLe_partition {fs : FS} {a b : Path} (h : entryLe fs a b) :
    (fs.isDir a = true ∧ fs.isDir b = false) ∨
      (fs.isDir a = fs.isDir b ∧ pathCmp a b ≠ Ordering.gt) := by
  unfold entryLe entryCmp at h
  cases hda : fs.isDir a <;> cases hdb : fs.isDir b <;>
    rw [hda, hdb] at h <;> simp at h ⊢
  · exact h
  · exact h

theorem collectEntries_congr {d d' : FileDialog}
    (hs : d'.show_hidden_files = d.show_hidden_files) (cwd : Path) :
    ∀ raw, collectEntries d' cwd raw = collectEntries d cwd raw := by
  intro raw
  induction raw with
  | nil => rfl
  | cons x rest ih =>
    cases x with
    | none => rfl
    | some name => simp only [collectEntries, ih, hs]

theorem renderList_congr {d d' : FileDialog}
    (hs : d'.show_hidden_files = d.show_hidden_files) (fs : FS) (cwd : Path) :
    renderList d' fs cwd = renderList d fs cwd := by
  unfold renderList
  simp only [collectEntries_congr hs]

end ImFile

namespace ImFile

/-! Behaviour of the breadcrumb row, the entry loop and the control bar. -/

theorem breadcrumb_cwd_of_no_click {fs : FS} {fr : Frame}
    (h : ∀ i, fr.breadcrumbClicked i = false) :
    ∀ (l : List (Nat × Component)) (acc : CrumbAcc),
      (l.foldl (crumbStep fs fr) acc).cwd = acc.cwd := by
  intro l
  induction l with
  | nil => intro acc; rfl
  | cons ic rest ih =>
    intro acc
    rw [List.foldl_cons, ih]
    unfold crumbStep
    rw [h ic.1]
    rfl

theorem breadcrumbRow_cwd_of_no_click {fs : FS} {fr : Frame}
    (h : ∀ i, fr.breadcrumbClicked i = false) (cwd0 : Path) :
    (breadcrumbRow fs fr cwd0).cwd = cwd0 :=
  breadcrumb_cwd_of_no_click h cwd0.enum _

theorem entryLoop_cwd_of_no_dir_click {d : FileDialog} {fs : FS} {fr : Frame}
    (h : ∀ p, fr.entryClicked p = true → fs.isDir p = false) :
    ∀ (l : List Path) (acc : LoopAcc),
      (l.foldl (entryStep d fs fr) acc).cwd = acc.cwd := by
  intro l
  induction l with
  | nil => intro acc; rfl
  | cons e rest ih =>
    intro acc
    rw [List.foldl_cons, ih]
    unfold entryStep
    by_cases hf : (fs.isFile e && !d.dirs_only) = true
    · rw [if_pos hf]
      cases hc : fr.entryClicked e <;> simp
    · rw [if_neg hf]
      by_cases hd : fs.isDir e = true
      · rw [if_pos hd]
        cases hc : fr.entryClicked e with
        | false => simp
        | true => exact absurd (h e hc) (by rw [hd]; exact fun hx => nomatch hx)
      · rw [if_neg hd]

theorem entryLoop_result_of_no_file_click {d : FileDialog} {fs : FS} {fr : Frame}
    (h : ∀ p, fr.entryClicked p = true → (fs.isFile p && !d.dirs_only) = false) :
    ∀ (l : List Path) (acc : LoopAcc), acc.result = none →
      (l.foldl (entryStep d fs fr) acc).result = none := by
  intro l
  induction l with
  | nil => intro acc hacc; exact hacc
  | cons e rest ih =>
    intro acc hacc
    rw [List.foldl_cons]
    apply ih
    unfold entryStep
    by_cases hf : (fs.isFile e && !d.dirs_only) = true
    · rw [if_pos hf]
      cases hc : fr.entryClicked e with
      | false => simpa using hacc
      | true =>
        rw [h e hc] at hf
        exact nomatch hf
    · rw [if_neg hf]
      by_cases hd : fs.isDir e = true
      · rw [if_pos hd]
        cases hc : fr.entryClicked e with
        | false => simpa using hacc
        | true =>
          simp only [if_true]
          cases chdir fs acc.cwd e <;> simpa using hacc
      · rw [if_neg hd]; exact hacc

theorem entryLoop_result_of_file_click {d : FileDialog} {fs : FS} {fr : Frame} {e : Path}
    (hone : ∀ p, fr.entryClicked p = true → p = e)
    (hce : fr.entryClicked e = true)
    (hf : (fs.isFile e && !d.dirs_only) = true) :
    ∀ (l : List Path) (acc : LoopAcc), acc.result = none ∨ acc.result = some e →
      (l.foldl (entryStep d fs fr) acc).result =
        if e ∈ l then some e else acc.result := by
  intro l
  induction l with
  | nil => intro acc _; simp
  | cons x rest ih =>
    intro acc hacc
    rw [List.foldl_cons]
    by_cases hx : x = e
    · subst hx
      have hstep : (entryStep d fs fr acc x).result = some x := by
        unfold entryStep
        rw [if_pos hf, if_pos hce]
      rw [ih _ (Or.inr hstep)]
      rw [hstep]
      simp
    · have hc : fr.entryClicked x = false := by
        cases hcx : fr.entryClicked x with
        | false => rfl
        | true => exact absurd (hone x hcx) hx
      have hstep : (entryStep d fs fr acc x).result = acc.result := by
        unfold entryStep
        by_cases hfx : (fs.isFile x && !d.dirs_only) = true
        · rw [if_pos hfx, hc]
          simp
        · rw [if_neg hfx]
          by_cases hdx : fs.isDir x = true
          · rw [if_pos hdx, hc]
            simp
          · rw [if_neg hdx]
      rw [ih _ (by rw [hstep]; exact hacc), hstep]
      simp [hx, Ne.symm hx]

theorem entryLoop_cwd_of_single_dir_click {d : FileDialog} {fs : FS} {fr : Frame} {e : Path}
    (hone : ∀ p, fr.entryClicked p = true → p = e)
    (hce : fr.entryClicked e = true)
    (habs : isAbsolute e = true)
    (hde : fs.isDir e = true)
    (hfe : (fs.isFile e && !d.dirs_only) = false) :
    ∀ (l : List Path) (acc : LoopAcc),
      (l.foldl (entryStep d fs fr) acc).cwd = if e ∈ l then e else acc.cwd := by
  intro l
  induction l with
  | nil => intro acc; simp
  | cons x rest ih =>
    intro acc
    rw [List.foldl_cons, ih]
    by_cases hx : x = e
    · subst hx
      have hstep : (entryStep d fs fr acc x).cwd = x := by
        unfold entryStep
        rw [if_neg (by rw [hfe]; exact fun h => nomatch h), if_pos hde, hce]
        simp only [if_true]
        unfold chdir
        rw [if_pos habs, if_pos hde]
      rw [hstep]
      simp
    · have hc : fr.entryClicked x = false := by
        cases hcx : fr.entryClicked x with
        | false => rfl
        | true => exact absurd (hone x hcx) hx
      have hstep : (entryStep d fs fr acc x).cwd = acc.cwd := by
        unfold entryStep
        by_cases hfx : (fs.isFile x && !d.dirs_only) = true
        · rw [if_pos hfx, hc]
          simp
        · rw [if_neg hfx]
          by_cases hdx : fs.isDir x = true
          · rw [if_pos hdx, hc]
            simp
          · rw [if_neg hdx]
      rw [hstep]
      simp [hx, Ne.symm hx]

theorem collectEntries_ok (d : FileDialog) (cwd : Path) :
    ∀ raw, (∀ x ∈ raw, x ≠ none) →
      ∃ L, collectEntries d cwd raw = Except.ok L := by
  intro raw
  induction raw with
  | nil => intro _; exact ⟨[], rfl⟩
  | cons x rest ih =>
    intro h
    obtain ⟨L, hL⟩ := ih fun y hy => h y (List.mem_cons_of_mem x hy)
    cases x with
    | none => exact absurd rfl (h none (List.mem_cons_self none rest))
    | some name =>
      simp only [collectEntries, hL]
      by_cases hs : d.show_hidden_files = true
      · rw [if_pos hs]
        exact ⟨_, rfl⟩
      · rw [if_neg hs]
        cases startsWith (cwd ++ [Component.normal name]) [Component.curDir] <;>
          exact ⟨_, rfl⟩

theorem popPath_concat {l : Path} (c : Component) (h : l ≠ []) :
    popPath (l ++ [c]) = l := by
  cases l with
  | nil => exact absurd rfl h
  | cons a as =>
    unfold popPath
    rw [if_neg, List.dropLast_concat]
    simp

end ImFile

namespace ImFile

/-- C1: the claim fails on the code. With `show_hidden_files = false` the
dialog still renders the dot-entry `.hidden` of `/d`:
`entry.path().starts_with(".")` is a whole-component prefix test on the
absolute entry path, so it never matches and no entry is ever excluded. -/
theorem C1_hidden_entry_rendered :
    FileDialog.new.show_hidden_files = false ∧
    renderList FileDialog.new fsHidden [Component.rootDir, Component.normal "d"] =
      Except.ok [[Component.rootDir, Component.normal "d", Component.normal ".hidden"]] :=
  ⟨rfl, rfl⟩

/-- C2: for every directory contents and fixed `show_hidden_files`, the
rendered entry list is a permutation of the filtered listing in which every
directory precedes every file and entries of the same kind are ordered by
comparing their full paths; the list depends only on the listing, the
metadata and `show_hidden_files` (determinism). -/
theorem C2_sorted_partition (d : FileDialog) (fs : FS) (cwd : Path) (l : List Path)
    (h : renderList d fs cwd = Except.ok l) :
    (∃ raw l₀, fs.readDir cwd = some raw ∧ collectEntries d cwd raw = Except.ok l₀ ∧
      l.Perm l₀) ∧
    List.Pairwise (fun a b =>
      (fs.isDir a = true ∧ fs.isDir b = false) ∨
        (fs.isDir a = fs.isDir b ∧ pathCmp a b ≠ Ordering.gt)) l ∧
    (∀ d' : FileDialog, d'.show_hidden_files = d.show_hidden_files →
      renderList d' fs cwd = Except.ok l) := by
  have hcongr : ∀ d' : FileDialog, d'.show_hidden_files = d.show_hidden_files →
      renderList d' fs cwd = Except.ok l := by
    intro d' hd'
    rw [renderList_congr hd']
    exact h
  unfold renderList at h
  cases hrd : fs.readDir cwd with
  | none => simp only [hrd] at h; exact nomatch h
  | some raw =>
    simp only [hrd] at h
    cases hce : collectEntries d cwd raw with
    | error e => simp only [hce] at h; exact nomatch h
    | ok l₀ =>
      simp only [hce] at h
      have hl : sortEntries fs l₀ = l := Except.ok.inj h
      subst hl
      exact ⟨⟨raw, l₀, rfl, hce, sortEntries_perm fs l₀⟩,
        (sortEntries_pairwise fs l₀).imp (fun hab => entryLe_partition hab), hcongr⟩

/-- Witness for C2 on the spec's example directory, whose rendered order is
`/A` (dir), `/.hidden`, `/b.txt`. -/
theorem C2_sorted_partition_witness :
    List.Pairwise (fun a b =>
      (fsDemo.isDir a = true ∧ fsDemo.isDir b = false) ∨
        (fsDemo.isDir a = fsDemo.isDir b ∧ pathCmp a b ≠ Ordering.gt))
      [[Component.rootDir, Component.normal "A"],
       [Component.rootDir, Component.normal ".hidden"],
       [Component.rootDir, Component.normal "b.txt"]] :=
  (C2_sorted_partition FileDialog.new fsDemo [Component.rootDir]
    [[Component.rootDir, Component.normal "A"],
     [Component.rootDir, Component.normal ".hidden"],
     [Component.rootDir, Component.normal "b.txt"]] (by rfl)).2.1

/-- C4 fails as stated: a failing directory read is not recovered — the
`unwrap` panics and the render call aborts. -/
theorem C4_counterexample :
    spawn FileDialog.new fsNoRead [Component.rootDir] frIdle =
      Except.error "called Result::unwrap on an Err value" := rfl

/-- C4 (amended): directory-change failures are recovered locally and only
logged — whenever the directory listing itself succeeds with no failing
entry, `spawn` returns normally whatever navigation the frame attempts;
only a failing directory read or a failing entry aborts the call. -/
theorem C4_chdir_failures_recovered (d : FileDialog) (fs : FS) (cwd0 : Path)
    (fr : Frame) (raw : List (Option String))
    (hread : fs.readDir (breadcrumbRow fs fr cwd0).cwd = some raw)
    (hentries : ∀ x ∈ raw, x ≠ none) :
    ∃ o, spawn d fs cwd0 fr = Except.ok o := by
  obtain ⟨L, hL⟩ := collectEntries_ok d (breadcrumbRow fs fr cwd0).cwd raw hentries
  have hrl : renderList d fs (breadcrumbRow fs fr cwd0).cwd =
      Except.ok (sortEntries fs L) := by
    simp only [renderList, hread, hL]
  cases hspawn : spawn d fs cwd0 fr with
  | error e =>
    simp only [spawn, hrl] at hspawn
    exact nomatch hspawn
  | ok o => exact ⟨o, rfl⟩

/-- Witness for C4: a breadcrumb activation whose directory change fails
(no such directory) is recovered and the call still returns normally. -/
theorem C4_chdir_failures_recovered_witness :
    ∃ o, spawn FileDialog.new fsIdle [Component.rootDir, Component.normal "a"]
        { frIdle with breadcrumbClicked := fun i => i == 1 } = Except.ok o :=
  C4_chdir_failures_recovered FileDialog.new fsIdle
    [Component.rootDir, Component.normal "a"]
    { frIdle with breadcrumbClicked := fun i => i == 1 } [] (by rfl)
    (by intro x hx; exact absurd hx (List.not_mem_nil x))

/-- C5: the claim fails on the code. Activating breadcrumb component "a" of
`/a/b` does not truncate to `/a`: the code passes the bare component to
`set_current_dir`, which resolves it relative to `/a/b`, navigating down to
`/a/b/a` when that directory exists. -/
theorem C5_breadcrumb_goes_relative :
    spawnCwd (spawn FileDialog.new fsCrumb
        [Component.rootDir, Component.normal "a", Component.normal "b"]
        { frIdle with breadcrumbClicked := fun i => i == 1 }) =
      some [Component.rootDir, Component.normal "a", Component.normal "b",
        Component.normal "a"] ∧
    ([Component.rootDir, Component.normal "a", Component.normal "b",
        Component.normal "a"] : Path) ≠
      [Component.rootDir, Component.normal "a"] :=
  ⟨rfl, by decide⟩

/-- C6: the claim fails on the code. Activating the "Hidden Files" checkbox
leaves `show_hidden_files` unchanged: imgui's checkbox already writes the
toggled value through its reference, and the source negates it back. -/
theorem C6_toggle_is_noop :
    FileDialog.new.show_hidden_files = false ∧
    spawnHidden (spawn FileDialog.new fsIdle [Component.rootDir]
        { frIdle with hiddenClicked := true }) = some false :=
  ⟨rfl, rfl⟩

/-- C7 fails as stated: `dir_only` then `for_save` clears `dirs_only`,
while `for_save` then `dir_only` leaves it set. -/
theorem C7_counterexample :
    Build.for_save (Build.dir_only FileDialog.new) ≠
      Build.dir_only (Build.for_save FileDialog.new) := by decide

/-- C7 (amended): any two calls to distinct builder methods other than the
pair `dir_only`/`for_save` are order-independent, on any dialog state. -/
theorem C7_builders_commute (d : FileDialog) (c1 c2 : BuilderCall)
    (hk : c1.kind ≠ c2.kind)
    (h34 : ¬(c1.kind = 3 ∧ c2.kind = 4))
    (h43 : ¬(c1.kind = 4 ∧ c2.kind = 3)) :
    BuilderCall.apply c2 (BuilderCall.apply c1 d) =
      BuilderCall.apply c1 (BuilderCall.apply c2 d) := by
  cases c1 <;> cases c2 <;>
    simp_all [BuilderCall.apply, BuilderCall.kind, Build.title, Build.accept_text,
      Build.cancel_text, Build.dir_only, Build.for_save]

/-- Witness for C7: `title` and `for_save` commute on a fresh dialog. -/
theorem C7_builders_commute_witness :
    (BuilderCall.titleB "T").kind ≠ BuilderCall.forSaveB.kind ∧
    BuilderCall.apply BuilderCall.forSaveB
        (BuilderCall.apply (BuilderCall.titleB "T") FileDialog.new) =
      BuilderCall.apply (BuilderCall.titleB "T")
        (BuilderCall.apply BuilderCall.forSaveB FileDialog.new) :=
  ⟨by decide, C7_builders_commute FileDialog.new (BuilderCall.titleB "T")
    BuilderCall.forSaveB (by decide) (by decide) (by decide)⟩

/-- C9: in a frame whose only activations are file entries (no breadcrumb,
no Back, no directory entry), `current_directory` is unchanged by the
render call: file selection only sets the frame's result. -/
theorem C9_file_select_preserves_cwd (d : FileDialog) (fs : FS) (cwd0 : Path)
    (fr : Frame) (o : SpawnOut)
    (hbc : ∀ i, fr.breadcrumbClicked i = false)
    (hback : fr.backClicked = false)
    (hnodir : ∀ p, fr.entryClicked p = true → fs.isDir p = false)
    (hspawn : spawn d fs cwd0 fr = Except.ok o) :
    o.cwd = cwd0 := by
  cases hrl : renderList d fs (breadcrumbRow fs fr cwd0).cwd with
  | error e =>
    rw [show spawn d fs cwd0 fr = Except.error e by simp only [spawn, hrl]] at hspawn
    exact nomatch hspawn
  | ok entries =>
    simp only [spawn, hrl, Except.ok.injEq] at hspawn
    rw [← hspawn]
    simp only [controlBar, hback, if_false, Bool.false_eq_true]
    unfold entryLoop
    rw [entryLoop_cwd_of_no_dir_click hnodir]
    exact breadcrumbRow_cwd_of_no_click hbc cwd0

/-- Witness for C9: selecting `/b.txt` in the demo directory leaves the
current directory at `/`. -/
theorem C9_file_select_preserves_cwd_witness :
    spawnCwd (spawn FileDialog.new fsDemo [Component.rootDir]
      (frOnlyEntry [Component.rootDir, Component.normal "b.txt"])) =
      some [Component.rootDir] := by
  have h : spawn FileDialog.new fsDemo [Component.rootDir]
      (frOnlyEntry [Component.rootDir, Component.normal "b.txt"]) =
      Except.ok
        { dialog := FileDialog.new
          cwd := [Component.rootDir]
          result := some [Component.rootDir, Component.normal "b.txt"]
          trace := ["Open File", "Path: ", "/", "[dir] \tA", "[file]\t.hidden",
            "[file]\tb.txt", "Back", "Open", "Hidden Files"] } := rfl
  have hc := C9_file_select_preserves_cwd FileDialog.new fsDemo [Component.rootDir]
    (frOnlyEntry [Component.rootDir, Component.normal "b.txt"]) _
    (fun _ => rfl) rfl
    (by
      intro p hp
      have hpt : p = [Component.rootDir, Component.normal "b.txt"] := by
        simpa [frOnlyEntry, frIdle] using hp
      subst hpt
      rfl) h
  rw [spawnCwd, h]
  exact congrArg some hc

end ImFile

namespace ImFile

/-- C3 fails as stated: `Some` is not produced only in Open mode. In Save
mode (`for_save`, so `is_open = false` and `dirs_only = false`) file
controls are still rendered and activating one returns `Some(path)`. -/
theorem C3_counterexample :
    (Build.for_save FileDialog.new).is_open = false ∧
    spawnResult (spawn (Build.for_save FileDialog.new) fsOneFile [Component.rootDir]
        (frOnlyEntry [Component.rootDir, Component.normal "f.txt"])) =
      some (some [Component.rootDir, Component.normal "f.txt"]) :=
  ⟨rfl, rfl⟩

/-- C3 (amended): in a frame with at most one activated entry control,
`spawn` returns `some p` exactly when the activated control is the rendered
file entry `p` and `dirs_only` is unset — in either mode, Open or Save. -/
theorem C3_result_iff (d : FileDialog) (fs : FS) (cwd0 : Path) (fr : Frame)
    (o : SpawnOut) (l : List Path)
    (hspawn : spawn d fs cwd0 fr = Except.ok o)
    (hlist : renderList d fs (breadcrumbRow fs fr cwd0).cwd = Except.ok l)
    (hone : ∀ p q, fr.entryClicked p = true → fr.entryClicked q = true → p = q) :
    ∀ p, o.result = some p ↔
      (fr.entryClicked p = true ∧ fs.isFile p = true ∧ d.dirs_only = false ∧ p ∈ l) := by
  intro p
  simp only [spawn, hlist, Except.ok.injEq] at hspawn
  rw [← hspawn]
  show (entryLoop d fs fr l (breadcrumbRow fs fr cwd0).cwd).result = some p ↔ _
  unfold entryLoop
  by_cases hfc : ∃ q, fr.entryClicked q = true ∧ (fs.isFile q && !d.dirs_only) = true
  · obtain ⟨q, hq, hfq⟩ := hfc
    have honeq : ∀ r, fr.entryClicked r = true → r = q := fun r hr => hone r q hr hq
    have hfile : fs.isFile q = true := by
      have := hfq
      rw [Bool.and_eq_true] at this
      exact this.1
    have hdo : d.dirs_only = false := by
      have := hfq
      rw [Bool.and_eq_true] at this
      have h2 := this.2
      revert h2
      cases d.dirs_only <;> intro h2
      · rfl
      · exact nomatch h2
    rw [entryLoop_result_of_file_click honeq hq hfq l _ (Or.inl rfl)]
    by_cases hm : q ∈ l
    · rw [if_pos hm]
      constructor
      · intro h
        have hqp : q = p := Option.some.inj h
        subst hqp
        exact ⟨hq, hfile, hdo, hm⟩
      · intro h
        have hpq : p = q := honeq p h.1
        subst hpq
        rfl
    · rw [if_neg hm]
      constructor
      · intro h; exact nomatch h
      · intro h
        have hpq : p = q := honeq p h.1
        subst hpq
        exact absurd h.2.2.2 hm
  · push_neg at hfc
    have hnf : ∀ q, fr.entryClicked q = true → (fs.isFile q && !d.dirs_only) = false := by
      intro q hq
      have := hfc q hq
      revert this
      cases fs.isFile q && !d.dirs_only <;> intro hthis
      · rfl
      · exact absurd rfl hthis
    rw [entryLoop_result_of_no_file_click hnf l _ rfl]
    constructor
    · intro h; exact nomatch h
    · intro h
      have := hnf p h.1
      rw [h.2.1, h.2.2.1] at this
      exact nomatch this

/-- Witness for C3: in Open mode, clicking the file `/f.txt` returns
exactly `some /f.txt`. -/
theorem C3_result_iff_witness :
    spawnResult (spawn FileDialog.new fsOneFile [Component.rootDir]
        (frOnlyEntry [Component.rootDir, Component.normal "f.txt"])) =
      some (some [Component.rootDir, Component.normal "f.txt"]) := by
  have h : spawn FileDialog.new fsOneFile [Component.rootDir]
      (frOnlyEntry [Component.rootDir, Component.normal "f.txt"]) =
      Except.ok
        { dialog := FileDialog.new
          cwd := [Component.rootDir]
          result := some [Component.rootDir, Component.normal "f.txt"]
          trace := ["Open File", "Path: ", "/", "[file]\tf.txt", "Back", "Open",
            "Hidden Files"] } := rfl
  have hiff := C3_result_iff FileDialog.new fsOneFile [Component.rootDir]
    (frOnlyEntry [Component.rootDir, Component.normal "f.txt"]) _
    [[Component.rootDir, Component.normal "f.txt"]] h (by rfl)
    (by
      intro p q hp hq
      have hp' : p = [Component.rootDir, Component.normal "f.txt"] := by
        simpa [frOnlyEntry, frIdle] using hp
      have hq' : q = [Component.rootDir, Component.normal "f.txt"] := by
        simpa [frOnlyEntry, frIdle] using hq
      rw [hp', hq'])
  have hres := (hiff [Component.rootDir, Component.normal "f.txt"]).mpr
    ⟨rfl, rfl, rfl, List.mem_singleton.mpr rfl⟩
  rw [spawnResult, h]
  exact congrArg some hres

/-- C8: entering an existing subdirectory and then activating "Back"
returns `current_directory` to the original directory, and the Back action
is a no-op at the filesystem root. -/
theorem C8_back_round_trip (d : FileDialog) (fs : FS) (cwd : Path) (s : String)
    (fr1 fr2 : Frame) (l : List Path) (raw2 : List (Option String))
    (habs : isAbsolute cwd = true)
    (hdir : fs.isDir cwd = true)
    (hsub : fs.isDir (cwd ++ [Component.normal s]) = true)
    (hnotfile : fs.isFile (cwd ++ [Component.normal s]) = false)
    (h1bc : ∀ i, fr1.breadcrumbClicked i = false)
    (h1back : fr1.backClicked = false)
    (h1click : ∀ p, fr1.entryClicked p = true ↔ p = cwd ++ [Component.normal s])
    (hlist1 : renderList d fs cwd = Except.ok l)
    (hmem : cwd ++ [Component.normal s] ∈ l)
    (h2bc : ∀ i, fr2.breadcrumbClicked i = false)
    (h2click : ∀ p, fr2.entryClicked p = false)
    (h2back : fr2.backClicked = true)
    (hread2 : fs.readDir (cwd ++ [Component.normal s]) = some raw2)
    (hraw2 : ∀ x ∈ raw2, x ≠ none) :
    (∃ o1 o2, spawn d fs cwd fr1 = Except.ok o1 ∧
      o1.cwd = cwd ++ [Component.normal s] ∧
      spawn o1.dialog fs o1.cwd fr2 = Except.ok o2 ∧ o2.cwd = cwd) ∧
    backAction fs [Component.rootDir] = [Component.rootDir] := by
  have hcwdne : cwd ≠ [] := by
    intro hnil
    subst hnil
    exact nomatch habs
  constructor
  · have hcrumb1 : (breadcrumbRow fs fr1 cwd).cwd = cwd :=
      breadcrumbRow_cwd_of_no_click h1bc cwd
    have hlist1' : renderList d fs (breadcrumbRow fs fr1 cwd).cwd = Except.ok l := by
      rw [hcrumb1]; exact hlist1
    have habs_sub : isAbsolute (cwd ++ [Component.normal s]) = true := by
      unfold isAbsolute at habs ⊢
      cases cwd with
      | nil => exact nomatch habs
      | cons a as => simpa using habs
    have hone1 : ∀ p, fr1.entryClicked p = true → p = cwd ++ [Component.normal s] :=
      fun p hp => (h1click p).mp hp
    have hce1 : fr1.entryClicked (cwd ++ [Component.normal s]) = true :=
      (h1click _).mpr rfl
    have hfe : (fs.isFile (cwd ++ [Component.normal s]) && !d.dirs_only) = false := by
      rw [hnotfile]; rfl
    have hloop1 : (entryLoop d fs fr1 l (breadcrumbRow fs fr1 cwd).cwd).cwd =
        cwd ++ [Component.normal s] := by
      unfold entryLoop
      rw [entryLoop_cwd_of_single_dir_click hone1 hce1 habs_sub hsub hfe l _,
        if_pos hmem]
    cases hs1 : spawn d fs cwd fr1 with
    | error e =>
      simp only [spawn, hlist1'] at hs1
      exact nomatch hs1
    | ok o1 =>
      have hs1' := hs1
      simp only [spawn, hlist1', Except.ok.injEq] at hs1'
      have ho1 : o1.cwd = cwd ++ [Component.normal s] := by
        rw [← hs1']
        show (controlBar d fs fr1 _).cwd = _
        unfold controlBar
        rw [h1back]
        simpa using hloop1
      have hcrumb2 : (breadcrumbRow fs fr2 o1.cwd).cwd = o1.cwd :=
        breadcrumbRow_cwd_of_no_click h2bc _
      have hread2' : fs.readDir (breadcrumbRow fs fr2 o1.cwd).cwd = some raw2 := by
        rw [hcrumb2, ho1]; exact hread2
      obtain ⟨L2, hL2⟩ := collectEntries_ok o1.dialog (breadcrumbRow fs fr2 o1.cwd).cwd
        raw2 hraw2
      have hrl2 : renderList o1.dialog fs (breadcrumbRow fs fr2 o1.cwd).cwd =
          Except.ok (sortEntries fs L2) := by
        simp only [renderList, hread2', hL2]
      have h2nodir : ∀ p, fr2.entryClicked p = true → fs.isDir p = false := by
        intro p hp
        rw [h2click p] at hp
        exact nomatch hp
      cases hs2 : spawn o1.dialog fs o1.cwd fr2 with
      | error e =>
        simp only [spawn, hrl2] at hs2
        exact nomatch hs2
      | ok o2 =>
        have hs2' := hs2
        simp only [spawn, hrl2, Except.ok.injEq] at hs2'
        have hloop2 : (entryLoop o1.dialog fs fr2 (sortEntries fs L2)
            (breadcrumbRow fs fr2 o1.cwd).cwd).cwd = (breadcrumbRow fs fr2 o1.cwd).cwd := by
          unfold entryLoop
          exact entryLoop_cwd_of_no_dir_click h2nodir _ _
        have ho2 : o2.cwd = cwd := by
          rw [← hs2']
          show (controlBar o1.dialog fs fr2 _).cwd = cwd
          unfold controlBar
          rw [h2back]
          simp only [if_true]
          rw [hloop2, hcrumb2, ho1]
          unfold backAction
          rw [popPath_concat (Component.normal s) hcwdne]
          unfold chdir
          rw [if_pos habs, if_pos hdir]
          rfl
        exact ⟨o1, o2, rfl, ho1, hs2, ho2⟩
  · unfold backAction popPath chdir
    cases hroot : fs.isDir [Component.rootDir] <;> simp [isAbsolute, hroot]

/-- Witness for C8: entering `/sub` from `/` and pressing Back returns to
`/`; Back at `/` is a no-op. -/
theorem C8_back_round_trip_witness :
    (∃ o1 o2, spawn FileDialog.new fsSub [Component.rootDir]
        (frOnlyEntry ([Component.rootDir] ++ [Component.normal "sub"])) = Except.ok o1 ∧
      o1.cwd = [Component.rootDir] ++ [Component.normal "sub"] ∧
      spawn o1.dialog fsSub o1.cwd { frIdle with backClicked := true } = Except.ok o2 ∧
      o2.cwd = [Component.rootDir]) ∧
    backAction fsSub [Component.rootDir] = [Component.rootDir] :=
  C8_back_round_trip FileDialog.new fsSub [Component.rootDir] "sub"
    (frOnlyEntry ([Component.rootDir] ++ [Component.normal "sub"]))
    { frIdle with backClicked := true }
    [[Component.rootDir, Component.normal "sub"]] []
    rfl rfl rfl rfl (fun _ => rfl) rfl
    (by intro p; simp [frOnlyEntry, frIdle])
    (by rfl) (by simp) (fun _ => rfl) (fun _ => rfl) rfl (by rfl)
    (by intro x hx; exact absurd hx (List.not_mem_nil x))

theorem entryStep_congr {d d' : FileDialog} (h : d'.dirs_only = d.dirs_only)
    (fs : FS) (fr : Frame) : entryStep d' fs fr = entryStep d fs fr := by
  funext acc e
  unfold entryStep
  rw [h]

theorem entryLoop_congr {d d' : FileDialog} (h : d'.dirs_only = d.dirs_only)
    (fs : FS) (fr : Frame) (l : List Path) (c : Path) :
    entryLoop d' fs fr l c = entryLoop d fs fr l c := by
  unfold entryLoop
  rw [entryStep_congr h]

theorem controlBar_inert (d : FileDialog) (fs : FS) (fr : Frame) (c : Path)
    (x y : String) :
    controlBar { d with accept_text := x, cancel_text := y } fs fr c =
      { controlBar d fs fr c with dialog :=
        { (controlBar d fs fr c).dialog with accept_text := x, cancel_text := y } } := by
  unfold controlBar
  cases fr.hiddenClicked <;> rfl

/-- C10: the configured `accept_text`/`cancel_text` never affect the render
output or the returned value — the call's observable outcome is unchanged
under any relabelling (only the carried configuration fields differ), and
the control bar always ends with the literal labels "Back", "Open",
"Hidden Files". -/
theorem C10_labels_inert (d : FileDialog) (fs : FS) (cwd0 : Path) (fr : Frame)
    (x y : String) (o : SpawnOut)
    (hspawn : spawn d fs cwd0 fr = Except.ok o) :
    spawn { d with accept_text := x, cancel_text := y } fs cwd0 fr =
      Except.ok { o with dialog :=
        { o.dialog with accept_text := x, cancel_text := y } } ∧
    ∃ t, o.trace = t ++ ["Back", "Open", "Hidden Files"] := by
  cases hrl : renderList d fs (breadcrumbRow fs fr cwd0).cwd with
  | error e =>
    simp only [spawn, hrl] at hspawn
    exact nomatch hspawn
  | ok entries =>
    have hrl2 : renderList { d with accept_text := x, cancel_text := y } fs
        (breadcrumbRow fs fr cwd0).cwd = Except.ok entries := by
      rw [renderList_congr (show ({ d with accept_text := x, cancel_text := y } :
        FileDialog).show_hidden_files = d.show_hidden_files from rfl)]
      exact hrl
    simp only [spawn, hrl, Except.ok.injEq] at hspawn
    constructor
    · simp only [spawn, hrl2]
      rw [← hspawn]
      rw [entryLoop_congr (show ({ d with accept_text := x, cancel_text := y } :
        FileDialog).dirs_only = d.dirs_only from rfl)]
      rw [controlBar_inert]
    · rw [← hspawn]
      refine ⟨d.title :: ((breadcrumbRow fs fr cwd0).trace ++
        (entryLoop d fs fr entries (breadcrumbRow fs fr cwd0).cwd).trace ++
        (if !d.is_open then ["Filename: " ++ d.filename] else [])), ?_⟩
      show d.title :: (_ ++ _ ++ (controlBar d fs fr _).trace) = _
      unfold controlBar
      simp [List.append_assoc]

/-- Witness for C10: relabelling a fresh dialog changes nothing observable
in an idle frame at `/`. -/
theorem C10_labels_inert_witness :
    spawn { FileDialog.new with accept_text := "Yes", cancel_text := "No" }
        fsIdle [Component.rootDir] frIdle =
      Except.ok
        { dialog := { FileDialog.new with accept_text := "Yes", cancel_text := "No" }
          cwd := [Component.rootDir]
          result := none
          trace := ["Open File", "Path: ", "/", "Back", "Open", "Hidden Files"] } ∧
    ∃ t, (["Open File", "Path: ", "/", "Back", "Open", "Hidden Files"] : List String) =
      t ++ ["Back", "Open", "Hidden Files"] :=
  C10_labels_inert FileDialog.new fsIdle [Component.rootDir] frIdle "Yes" "No"
    { dialog := FileDialog.new
      cwd := [Component.rootDir]
      result := none
      trace := ["Open File", "Path: ", "/", "Back", "Open", "Hidden Files"] } (by rfl)

end ImFile
